import Mathlib

/-!
# enviro: the World–Agent simulation kernel

A shallow embedding of `server/include/agent.h`, `server/include/world.h` and
`examples/wanderers/src/block.h`.

* Raw pointers (`cpBody *`, `cpShape *`, `World *`, `Agent *`, function
  pointers) are addresses, natural numbers with `0` for `nullptr`.
* `double` / `cpFloat` values are IEEE-754 binary64 bit patterns (`Double`).
  The embedded code stores and returns them, and converts integers to them
  with `static_cast<double>`.
* `nlohmann::json` values are the inductive type `json`; element access and
  `get<cpFloat>()` return `Option`, `none` standing for a thrown exception or a
  failed library assertion.
* A `std::function<void(Event&)>` is a function `Event → σ → σ` over the state
  `σ` the handler acts on.
* Member functions whose bodies are in the headers are embedded from those
  bodies.  Member functions that are only declared in the headers are modelled
  from the specification, and say so in their doc comments.
-/

namespace enviro

/-- Raw address; `0` is `nullptr`. -/
abbrev Ptr := Nat

/-! ## double -/

/-- An IEEE-754 binary64 value, the C++ `double`, as its 64-bit pattern: bit 63
is the sign, bits 62–52 the biased exponent, bits 51–0 the fraction. -/
structure Double where
  bits : Nat
deriving DecidableEq

namespace Double

/-- The bit pattern of the positive double with biased exponent `exponent` and
53-bit significand `significand`, a number from 2^52 to 2^53; the significand
2^53 carries into the exponent. -/
def pack (exponent significand : Nat) : Double :=
  ⟨exponent * 2 ^ 52 + (significand - 2 ^ 52)⟩

/-- The quotient `n / 2^s` rounded to nearest, ties to even. -/
def round_shift (n s : Nat) : Nat :=
  if 2 ^ (s - 1) < n % 2 ^ s ∨ (n % 2 ^ s = 2 ^ (s - 1) ∧ n / 2 ^ s % 2 = 1) then
    n / 2 ^ s + 1
  else n / 2 ^ s

/-- Index of the highest set bit of `n` among bits `k` down to 1, and 0 when
none of them is set. -/
def top_bit (n : Nat) : Nat → Nat
  | 0 => 0
  | k + 1 => if 2 ^ (k + 1) ≤ n then k + 1 else top_bit n k

/-- The conversion `static_cast<double>` of an unsigned 64-bit integer, in the
default rounding mode (to nearest, ties to even): up to 53 significant bits
are kept as they are, more are rounded. -/
def of_nat (n : Nat) : Double :=
  if n = 0 then ⟨0⟩
  else if top_bit n 63 ≤ 52 then pack (top_bit n 63 + 1023) (n * 2 ^ (52 - top_bit n 63))
  else pack (top_bit n 63 + 1023) (round_shift n (top_bit n 63 - 52))

/-- The conversion `static_cast<double>` of a signed 64-bit integer: that of
its magnitude, with the sign bit set for a negative integer. -/
def of_int : Int → Double
  | Int.ofNat n => of_nat n
  | Int.negSucc n => ⟨2 ^ 63 + (of_nat (n + 1)).bits⟩

/-- The absolute value of a double whose value is an integer; `none` for a
value with a fractional part, an infinity or a NaN. -/
def magnitude (d : Double) : Option Nat :=
  if d.bits / 2 ^ 52 % 2048 = 2047 then none
  else if d.bits / 2 ^ 52 % 2048 = 0 then
    (if d.bits % 2 ^ 52 = 0 then some 0 else none)
  else if 1075 ≤ d.bits / 2 ^ 52 % 2048 then
    some ((2 ^ 52 + d.bits % 2 ^ 52) * 2 ^ (d.bits / 2 ^ 52 % 2048 - 1075))
  else if (2 ^ 52 + d.bits % 2 ^ 52) % 2 ^ (1075 - d.bits / 2 ^ 52 % 2048) = 0 then
    some ((2 ^ 52 + d.bits % 2 ^ 52) / 2 ^ (1075 - d.bits / 2 ^ 52 % 2048))
  else none

/-- The value of a double whose value is an integer; `none` for every other
double. -/
def to_int (d : Double) : Option Int :=
  match d.magnitude with
  | some v => if d.bits / 2 ^ 63 % 2 = 1 then some (-(v : Int)) else some (v : Int)
  | none => none

/-- Whether `d` is the integer `i` rounded to a double: the value of `d` is an
integer that differs from `i` by at most `|i| / 2^53`. -/
def is_rounding_of (d : Double) (i : Int) : Bool :=
  match d.to_int with
  | some w => decide (2 ^ 53 * (w - i).natAbs ≤ i.natAbs)
  | none => false

end Double

/-- Integer literals of type `double` are converted integers. -/
instance (n : Nat) : OfNat Double n := ⟨Double.of_nat n⟩

/-- Value of `cpFloat` (chipmunk is built with doubles). -/
abbrev cpFloat := Double

/-! ## nlohmann::json, as far as agent.h uses it -/

/-- Value tree of `nlohmann::json`. -/
inductive json where
  | null : json
  | boolean : Bool → json
  | number_integer : Int → json
  | number_unsigned : Nat → json
  | number_float : Double → json
  | string : String → json
  | array : List json → json
  | object : List (String × json) → json

namespace json

/-- Association-list search of an object's members (`object_t::find`). -/
def find_member (key : String) : List (String × json) → Option json
  | [] => none
  | (k, v) :: rest => if k = key then some v else find_member key rest

/-- Const `operator[](key)`: defined only on an object that has the key.  On an
object without the key the library asserts, on a non-object it throws
`type_error` 305; both are `none`. -/
def at_const (j : json) (key : String) : Option json :=
  match j with
  | object members => find_member key members
  | _ => none

/-- Non-const `operator[](key)` applied to a temporary: `null` is first turned
into an empty object, a missing key is inserted with value `null`, a non-object
throws `type_error` 305 (`none`).  The temporary is discarded, so only the
element read is kept. -/
def at_mut (j : json) (key : String) : Option json :=
  match j with
  | null => some null
  | object members =>
    match find_member key members with
    | some v => some v
    | none => some null
  | _ => none

/-- Whether the value is one of the three number kinds. -/
def is_number : json → Bool
  | number_integer _ => true
  | number_unsigned _ => true
  | number_float _ => true
  | _ => false

/-- The `static_cast<double>` of a number value: `number_integer` holds an
`int64_t`, `number_unsigned` a `uint64_t`, `number_float` a `double` (`0` on
other kinds, where `get<cpFloat>` never uses it). -/
def number_as_double : json → cpFloat
  | number_integer i => Double.of_int i
  | number_unsigned n => Double.of_nat n
  | number_float d => d
  | _ => 0

/-- Conversion `get<cpFloat>()`: `get_arithmetic_value` accepts the three
number kinds and throws `type_error` 302 on every other kind. -/
def get_cpFloat (j : json) : Option cpFloat :=
  if j.is_number then some j.number_as_double else none

/-- Comparison `j == "literal"`: the literal becomes a json string, and a json
string equals only a json string with the same characters. -/
def eq_string (j : json) (s : String) : Bool :=
  match j with
  | string t => decide (t = s)
  | _ => false

end json

/-! ## Agent (agent.h) -/

/-- Collision event handed to a handler: the ids of the two agents and the type
name of the other agent. -/
structure Event where
  self_id : Int
  other_id : Int
  other_type : String

/-- A `std::function<void(Event&)>`: what one invocation does to the state
`σ` it acts on. -/
abbrev Handler (σ : Type) := Event → σ → σ

/-- Private state of `class Agent` (agent.h lines 132–151), field by field. -/
structure Agent (σ : Type) where
  _body : Ptr
  _shape : Ptr
  _destroyer : Ptr
  _id : Int
  _specification : json
  _processes : List Ptr
  _sensors : List Ptr
  _world_ptr : Ptr
  collision_handlers : List (String × Handler σ)
  _alive : Bool
  _moment_of_inertia : cpFloat
  _invisible : Bool
  _client_id : String
  _decoration : String
  _label : String
  _label_x : cpFloat
  _label_y : cpFloat

namespace Agent

variable {σ : Type}

/-- Source: `inline void set_destroyer(void (*f)(Agent*)) { _destroyer = f; }` -/
def set_destroyer (a : Agent σ) (f : Ptr) : Agent σ :=
  { a with _destroyer := f }

/-- Source: `inline json definition() const { return _specification["definition"]; }` -/
def definition (a : Agent σ) : Option json :=
  a._specification.at_const "definition"

/-- Source: `inline json friction() const { return definition()["friction"]; }` -/
def friction (a : Agent σ) : Option json :=
  match a.definition with
  | some d => d.at_mut "friction"
  | none => none

/-- Source: `inline double linear_friction() const
{ return friction()["linear"].get<cpFloat>(); }` -/
def linear_friction (a : Agent σ) : Option cpFloat :=
  match a.friction with
  | some f =>
    match f.at_mut "linear" with
    | some v => v.get_cpFloat
    | none => none
  | none => none

/-- Source: `inline double rotational_friction() const
{ return friction()["rotational"].get<cpFloat>(); }` -/
def rotational_friction (a : Agent σ) : Option cpFloat :=
  match a.friction with
  | some f =>
    match f.at_mut "rotational" with
    | some v => v.get_cpFloat
    | none => none
  | none => none

/-- Source: `inline bool is_static() const
{ return _specification["definition"]["type"] == "static"; }` -/
def is_static (a : Agent σ) : Option Bool :=
  match a._specification.at_const "definition" with
  | some d =>
    match d.at_const "type" with
    | some t => some (t.eq_string "static")
    | none => none
  | none => none

/-- Source: `inline World * get_world_ptr() { return _world_ptr; }` -/
def get_world_ptr (a : Agent σ) : Ptr := a._world_ptr

/-- Source: `inline cpShape * get_shape() { return _shape; }` -/
def get_shape (a : Agent σ) : Ptr := a._shape

/-- Source: `inline int get_id() const { return _id; }` -/
def get_id (a : Agent σ) : Int := a._id

/-- Source: `Agent& decorate(const std::string svg) { _decoration = svg; return *this; }`
(the receiver after the call). -/
def decorate (a : Agent σ) (svg : String) : Agent σ :=
  { a with _decoration := svg }

/-- Source: `Agent& label(const string str, double x, double y)`: assigns `_label`,
`_label_x`, `_label_y` and returns `*this` (the receiver after the call). -/
def label (a : Agent σ) (str : String) (x y : cpFloat) : Agent σ :=
  { a with _label := str, _label_x := x, _label_y := y }

/-- Source: `Agent& clear_label() { _label = ""; return *this; }` -/
def clear_label (a : Agent σ) : Agent σ :=
  { a with _label := "" }

/-- Source: `inline void mark_for_removal() { _alive = false; }` -/
def mark_for_removal (a : Agent σ) : Agent σ :=
  { a with _alive := false }

/-- Source: `inline bool is_alive() { return _alive; }` -/
def is_alive (a : Agent σ) : Bool := a._alive

/-- Source: `inline bool visible() const { return !_invisible; }` -/
def visible (a : Agent σ) : Bool := !a._invisible

/-- The physics body exists: `_body` is not `nullptr`. -/
def body_exists (a : Agent σ) : Bool := decide (a._body ≠ 0)

end Agent

/-- The state-changing member functions whose bodies are in agent.h, with
their arguments. -/
inductive AgentOp where
  | mark_for_removal : AgentOp
  | label : String → cpFloat → cpFloat → AgentOp
  | clear_label : AgentOp
  | decorate : String → AgentOp
  | set_destroyer : Ptr → AgentOp

/-- One call of a state-changing member function on an agent. -/
def AgentOp.run {σ : Type} (op : AgentOp) (a : Agent σ) : Agent σ :=
  match op with
  | .mark_for_removal => a.mark_for_removal
  | .label str x y => a.label str x y
  | .clear_label => a.clear_label
  | .decorate svg => a.decorate svg
  | .set_destroyer f => a.set_destroyer f

/-- A sequence of calls, earliest first. -/
def AgentOp.run_all {σ : Type} (ops : List AgentOp) (a : Agent σ) : Agent σ :=
  ops.foldl (fun s op => op.run s) a

/-! ## Collision handler table (agent.h line 142) -/

/-- Lookup `std::map::find` in a `map<string, V>` kept as a key–value list. -/
def map_find {V : Type} (key : String) : List (String × V) → Option V
  | [] => none
  | (k, v) :: rest => if k = key then some v else map_find key rest

/-- Removal `std::map::erase(key)`: no entry for `key` remains. -/
def map_erase {V : Type} (key : String) (table : List (String × V)) :
    List (String × V) :=
  table.filter (fun kv => decide (kv.1 ≠ key))

/-- Assignment `table[key] = value`: the entry for `key` is created or
replaced; a `std::map` never holds two entries for one key. -/
def map_assign {V : Type} (key : String) (value : V)
    (table : List (String × V)) : List (String × V) :=
  (key, value) :: map_erase key table

namespace Agent

variable {σ : Type}

/-- Modelled from the spec: `Agent::notice_collisions_with` (declared at
agent.h line 92, body not in the headers).  It "installs/replaces the handler
for that type (keys unique — a second registration overwrites the first in
the table, not accumulates)" and returns the receiver. -/
def notice_collisions_with (a : Agent σ) (agent_type : String)
    (handler : Handler σ) : Agent σ :=
  { a with collision_handlers := map_assign agent_type handler a.collision_handlers }

/-- Modelled from the spec: `Agent::ignore_collisions_with` (declared at
agent.h line 93, body not in the headers).  It "removes the entry, reverting
to default no-reaction". -/
def ignore_collisions_with (a : Agent σ) (agent_type : String) : Agent σ :=
  { a with collision_handlers := map_erase agent_type a.collision_handlers }

/-- Modelled from the spec: `Agent::handle_collision` (declared at agent.h
line 94, body not in the headers).  It looks up the other agent's type name
in the receiver's handler table and, when a handler is registered, invokes it
exactly once with an event describing the pair; with no entry it does nothing.
`type_name` gives an agent's type name, which the specification leaves to the
configuration collaborator.  The result is the receiver together with the
state the handler acted on. -/
def handle_collision (type_name : Agent σ → String) (a other : Agent σ)
    (s : σ) : Agent σ × σ :=
  match map_find (type_name other) a.collision_handlers with
  | some handler =>
    (a, handler { self_id := a._id, other_id := other._id,
                  other_type := type_name other } s)
  | none => (a, s)

end Agent

/-! ## World (world.h) and the program state -/

/-- What the kernel relies on in a chipmunk `cpSpace`: the registered bodies
and shapes, and the number of steps taken.  The motion of the bodies is the
physics engine's business and is not recorded. -/
structure cpSpace where
  bodies : List Ptr
  shapes : List Ptr
  steps : Nat

/-- Private state of `class World` (world.h lines 33–35).  `agents` is the
`vector<Agent *>`; `space` is the pointee of the `cpSpace *` the World owns. -/
structure World where
  agents : List Ptr
  space : cpSpace
  timeStep : cpFloat

/-- Source: `inline cpSpace * get_space() { return space; }` -/
def World.get_space (w : World) : cpSpace := w.space

/-- Source: `void init() {}`, `void start() {}` and `void stop() {}` of World, which
do nothing. -/
def World.init (w : World) : World := w

/-- Program state: the Agent objects by address, the instances allocated with
`new` and not yet deleted, the bodies and shapes the physics engine has
allocated and not yet freed, the next agent id, and the World. -/
structure Memory (σ : Type) where
  obj : Ptr → Agent σ
  live : List Ptr
  engine : List Ptr
  next_id : Int
  world : World

/-- An address that is not `nullptr` and above every address in `used`. -/
def fresh : List Ptr → Ptr
  | [] => 1
  | x :: xs => max (x + 1) (fresh xs)

namespace Memory

variable {σ : Type}

/-- Run a member function body on the object at `this`. -/
def modify (m : Memory σ) (this : Ptr) (f : Agent σ → Agent σ) : Memory σ :=
  { m with obj := Function.update m.obj this (f (m.obj this)) }

/-- Call `this->mark_for_removal()`. -/
def mark_for_removal (m : Memory σ) (this : Ptr) : Memory σ :=
  m.modify this Agent.mark_for_removal

/-- Call `this->is_alive()`. -/
def is_alive (m : Memory σ) (this : Ptr) : Bool :=
  (m.obj this).is_alive

/-- Call `this->label(str, x, y)`: the returned reference `*this` and the
state after the call. -/
def label (m : Memory σ) (this : Ptr) (str : String) (x y : cpFloat) :
    Ptr × Memory σ :=
  (this, m.modify this (fun a => a.label str x y))

/-- Call `this->clear_label()`: the returned reference `*this` and the state
after the call. -/
def clear_label (m : Memory σ) (this : Ptr) : Ptr × Memory σ :=
  (this, m.modify this Agent.clear_label)

/-- Addresses the physics engine already uses. -/
def engine_addresses (m : Memory σ) : List Ptr :=
  m.engine ++ (m.world.space.bodies ++ m.world.space.shapes)

end Memory

/-! ## Plugin entry points (agent.h lines 18–24, block.h) -/

/-- Modelled from the spec: the configuration check made when an agent is
constructed (the constructor's body is not in the headers).  The specification
document has "required fields `definition.type`, `definition.friction.linear`,
`definition.friction.rotational`", and "the core never validates beyond
presence/type of these fields". -/
def required_fields_present (specification : json) : Bool :=
  match specification.at_const "definition" with
  | some d =>
    (match d.at_const "type" with
      | some (json.string _) => true
      | _ => false) &&
    (match d.at_const "friction" with
      | some f =>
        (match f.at_const "linear" with
          | some v => v.is_number
          | none => false) &&
        (match f.at_const "rotational" with
          | some v => v.is_number
          | none => false)
      | none => false)
  | none => false

/-- Modelled from the spec: the constructor `Agent(json specification,
World& world)` (declared at agent.h line 42, body not in the headers), run on
the storage at `this`.  A configuration error is "surfaced at agent
construction" (`none`, state untouched).  Otherwise the agent gets "a
process-unique integer id, assigned at creation", its specification, a body
and a shape of its own that the physics engine allocates, liveness true, no
sensors, no collision handlers and no sub-processes.  The body is not put into
the World's space: that is `World::add_agent`'s work.  `moment` is the physics
engine's moment-of-inertia computation. -/
def Agent.construct {σ : Type} (moment : json → cpFloat) (specification : json)
    (world : Ptr) (this : Ptr) (m : Memory σ) : Option (Memory σ) :=
  if required_fields_present specification then
    let body := fresh m.engine_addresses
    let shape := fresh (body :: m.engine_addresses)
    some { m with
      obj := Function.update m.obj this
        { _body := body
          _shape := shape
          _destroyer := 0
          _id := m.next_id
          _specification := specification
          _processes := []
          _sensors := []
          _world_ptr := world
          collision_handlers := []
          _alive := true
          _moment_of_inertia := moment specification
          _invisible := false
          _client_id := ""
          _decoration := ""
          _label := ""
          _label_x := 0
          _label_y := 0 }
      engine := shape :: body :: m.engine
      next_id := m.next_id + 1 }
  else none

/-- Modelled from the spec: the destructor `~Agent()` (declared at agent.h
line 47, body not in the headers), "freeing the physics body/shape": the
agent's body and shape leave the space and are handed back to the engine. -/
def Agent.destruct {σ : Type} (this : Ptr) (m : Memory σ) : Memory σ :=
  let a := m.obj this
  { m with
    world := { m.world with
      space := { m.world.space with
        bodies := m.world.space.bodies.filter (fun b => decide (b ≠ a._body))
        shapes := m.world.space.shapes.filter (fun c => decide (c ≠ a._shape)) } }
    engine := (m.engine.erase a._shape).erase a._body }

/-- The creation entry point of `DECLARE_INTERFACE(C)`:
`return new C(spec, world);`.  Storage is taken at an unused address and `C`'s
constructor `ctor` runs on it; when the constructor throws, the `new`
expression gives the storage back and nothing is returned. -/
def create_agent {σ : Type}
    (ctor : json → Ptr → Ptr → Memory σ → Option (Memory σ))
    (spec : json) (world : Ptr) (m : Memory σ) : Option (Ptr × Memory σ) :=
  let object := fresh m.live
  match ctor spec world object m with
  | some m1 => some (object, { m1 with live := object :: m1.live })
  | none => none

/-- The destruction entry point of `DECLARE_INTERFACE(C)`: `delete object;`.
Deleting `nullptr` does nothing; otherwise `C`'s destructor `dtor` runs and
the storage is released. -/
def destroy_agent {σ : Type} (dtor : Ptr → Memory σ → Memory σ)
    (object : Ptr) (m : Memory σ) : Memory σ :=
  if object = 0 then m
  else
    let m1 := dtor object m
    { m1 with live := m1.live.erase object }

namespace Block

variable {σ : Type}

/-- Modelled from the spec: the constructor `Block(json spec, World& world)`
(declared at block.h line 11, body not in the headers).  `Block` declares no
data members, so construction is that of its base class `Agent`. -/
def construct (moment : json → cpFloat) (spec : json) (world : Ptr)
    (this : Ptr) (m : Memory σ) : Option (Memory σ) :=
  Agent.construct moment spec world this m

/-- Creation entry point generated by `DECLARE_INTERFACE(Block)`. -/
def create_agent (moment : json → cpFloat) (spec : json) (world : Ptr)
    (m : Memory σ) : Option (Ptr × Memory σ) :=
  enviro.create_agent (construct moment) spec world m

/-- Destruction entry point generated by `DECLARE_INTERFACE(Block)`; `Block` has no
destructor of its own, so `delete` runs `~Agent()`. -/
def destroy_agent (object : Ptr) (m : Memory σ) : Memory σ :=
  enviro.destroy_agent Agent.destruct object m

end Block

/-! ## World operations (declared in world.h lines 25–30) -/

namespace World

variable {σ : Type}

/-- Modelled from the spec: `World::add_agent` (declared at world.h line 29,
body not in the headers).  It "registers a live Agent's physics body into the
physics space and appends it to the registry", and fails, here silently, "if
the same id is already registered". -/
def add_agent (m : Memory σ) (agent : Ptr) : Memory σ :=
  if m.world.agents.any (fun q => decide ((m.obj q)._id = (m.obj agent)._id)) then m
  else
    { m with
      world := { m.world with
        agents := m.world.agents ++ [agent]
        space := { m.world.space with
          bodies := m.world.space.bodies ++ [(m.obj agent)._body] } } }

/-- Modelled from the spec: `World::all` (declared at world.h line 30, body
not in the headers).  It "applies a visitor function to every
currently-registered agent, in registration order". -/
def all (m : Memory σ) (f : Ptr → Memory σ → Memory σ) : Memory σ :=
  m.world.agents.foldl (fun s agent => f agent s) m

/-- Modelled from the spec: phase (a) of `World::update`, which "invokes the
physics engine's step for the configured timestep".  The step moves bodies; it
registers and removes none. -/
def step_physics (m : Memory σ) : Memory σ :=
  { m with
    world := { m.world with
      space := { m.world.space with steps := m.world.space.steps + 1 } } }

/-- Modelled from the spec: phase (b) of `World::update`, which "for each live
agent, in registration order, invokes the agent's per-tick update".  `agent_update` is the virtual
`Agent::update` of the agent at the given address. -/
def update_agents (agent_update : Ptr → Memory σ → Memory σ) (m : Memory σ) :
    Memory σ :=
  m.world.agents.foldl
    (fun s agent => if s.is_alive agent then agent_update agent s else s) m

/-- Modelled from the spec: phase (c) of `World::update`, which "removes and
destroys every agent whose liveness flag is false, releasing its physics
resources via the Plugin Loader's destruction contract". -/
def reap (m : Memory σ) : Memory σ :=
  let dead := m.world.agents.filter (fun agent => !m.is_alive agent)
  let kept := m.world.agents.filter (fun agent => m.is_alive agent)
  dead.foldl (fun s agent => Block.destroy_agent agent s)
    { m with world := { m.world with agents := kept } }

/-- Modelled from the spec: `World::update` (declared at world.h line 25, body
not in the headers): the physics step, then the per-tick update of each live
agent, then the removal of the agents marked for removal. -/
def update (agent_update : Ptr → Memory σ → Memory σ) (m : Memory σ) : Memory σ :=
  reap (update_agents agent_update (step_physics m))

/-- The visitor `[](Agent& agent){ agent.mark_for_removal(); }`. -/
def mark_visitor (agent : Ptr) (m : Memory σ) : Memory σ :=
  m.mark_for_removal agent

/-- Modelled from the spec: the World invariant of the data model.  Registered
agents are behind valid references (never `nullptr`, as `add_agent` takes an
`Agent&`), and the space, which the World owns exclusively and fills through
`add_agent` only, holds no body other than those of its registered agents. -/
def well_formed (m : Memory σ) : Prop :=
  (∀ agent ∈ m.world.agents, agent ≠ 0) ∧
  (∀ b ∈ m.world.space.bodies, ∃ agent ∈ m.world.agents, (m.obj agent)._body = b)

end World

/-! ## Reading the specification document, in the spec's words -/

/-- The member of a specification document reached by a path of keys, as the
spec names fields (`definition.friction.linear`). -/
def json.member_at : List String → json → Option json
  | [], j => some j
  | key :: keys, json.object members =>
    match json.find_member key members with
    | some v => json.member_at keys v
    | none => none
  | _ :: _, _ => none

/-- Whether the double `d` has exactly the value of the number `v`. -/
def json.is_exactly (v : json) (d : cpFloat) : Bool :=
  match v with
  | json.number_float x => decide (d = x)
  | json.number_integer i => decide (d.to_int = some i)
  | json.number_unsigned n => decide (d.to_int = some (n : Int))
  | _ => false

/-- Numbers that are within reach of a double whatever their value: doubles
themselves, and integers of magnitude at most 2^53. -/
def json.fits_double : json → Bool
  | json.number_float _ => true
  | json.number_integer i => decide (i.natAbs ≤ 2 ^ 53)
  | json.number_unsigned n => decide (n ≤ 2 ^ 53)
  | _ => false

/-- Whether a number is in the range of the C++ type that stores it: `int64_t`
for `number_integer`, `uint64_t` for `number_unsigned`. -/
def json.in_range : json → Bool
  | json.number_float _ => true
  | json.number_integer i => decide (-(2 ^ 63) ≤ i ∧ i < 2 ^ 63)
  | json.number_unsigned n => decide (n < 2 ^ 64)
  | _ => false

/-- Whether the double `d` is the number `v` rounded to a double: `v` itself
when `v` is stored as a double, and for an integer `v` an integer-valued double
that differs from `v` by at most `|v| / 2^53`. -/
def json.is_rounding (v : json) (d : cpFloat) : Bool :=
  match v with
  | json.number_float x => decide (d = x)
  | json.number_integer i => d.is_rounding_of i
  | json.number_unsigned n => d.is_rounding_of (n : Int)
  | _ => false

/-! ## Concrete states used to exercise the definitions -/

namespace Sample

/-- The double nearest to 0.1, bit pattern 3FB999999999999A. -/
def tenth : cpFloat := ⟨0x3FB999999999999A⟩

/-- The double 0.5, bit pattern 3FE0000000000000. -/
def half : cpFloat := ⟨0x3FE0000000000000⟩

/-- A specification with the required fields, of a dynamic agent. -/
def spec : json :=
  json.object
    [("definition", json.object
      [("type", json.string "dynamic"),
       ("friction", json.object
         [("linear", json.number_float tenth),
          ("rotational", json.number_float half)])])]

/-- A specification whose friction coefficients are the integer 2^53 + 1. -/
def large_spec : json :=
  json.object
    [("definition", json.object
      [("type", json.string "dynamic"),
       ("friction", json.object
         [("linear", json.number_integer 9007199254740993),
          ("rotational", json.number_unsigned 9007199254740993)])])]

/-- A specification of a static agent. -/
def static_spec : json :=
  json.object
    [("definition", json.object
      [("type", json.string "static"),
       ("friction", json.object
         [("linear", json.number_integer 2),
          ("rotational", json.number_unsigned 3)])])]

/-- A live agent with a body, a shape and id 7; handlers act on a log. -/
def agent : Agent (List String) :=
  { _body := 1
    _shape := 2
    _destroyer := 0
    _id := 7
    _specification := spec
    _processes := []
    _sensors := []
    _world_ptr := 100
    collision_handlers := []
    _alive := true
    _moment_of_inertia := 1
    _invisible := false
    _client_id := ""
    _decoration := ""
    _label := "hello"
    _label_x := 3
    _label_y := 4 }

/-- A static agent. -/
def static_agent : Agent (List String) :=
  { agent with _specification := static_spec, _id := 8, _body := 3, _shape := 4 }

/-- An agent whose friction coefficients are the integer 2^53 + 1. -/
def large_agent : Agent (List String) :=
  { agent with _specification := large_spec, _id := 9, _body := 5, _shape := 6 }

/-- A state with no agent registered and an empty space; every address holds
the sample agent. -/
def memory : Memory (List String) :=
  { obj := fun _ => agent
    live := []
    engine := []
    next_id := 0
    world := { agents := [], space := { bodies := [], shapes := [], steps := 0 },
               timeStep := 1 } }

/-- A moment-of-inertia computation of the physics engine. -/
def moment : json → cpFloat := fun _ => 2

/-- The state after `create_agent(spec, world)` on the sample state: the new
instance is at address 1, with body 1 and shape 2 of the engine and id 0. -/
def created : Memory (List String) :=
  { obj := Function.update memory.obj 1
      { _body := 1
        _shape := 2
        _destroyer := 0
        _id := 0
        _specification := spec
        _processes := []
        _sensors := []
        _world_ptr := 100
        collision_handlers := []
        _alive := true
        _moment_of_inertia := moment spec
        _invisible := false
        _client_id := ""
        _decoration := ""
        _label := ""
        _label_x := 0
        _label_y := 0 }
    live := [1]
    engine := [2, 1]
    next_id := 1
    world := memory.world }

/-- A handler that writes `first` to the log. -/
def h1 : Handler (List String) := fun _ log => log ++ ["first"]

/-- A handler that writes `second` to the log. -/
def h2 : Handler (List String) := fun _ log => log ++ ["second"]

/-- An agent's type name read from `definition.type`. -/
def type_name (a : Agent (List String)) : String :=
  match json.member_at ["definition", "type"] a._specification with
  | some (json.string t) => t
  | _ => ""

end Sample

/-! ## The integer to double conversion -/

namespace Double

theorem fields (E F : Nat) (hE : E < 2048) (hF : F < 2 ^ 52) :
    (E * 2 ^ 52 + F) / 2 ^ 52 % 2048 = E ∧ (E * 2 ^ 52 + F) % 2 ^ 52 = F ∧
    E * 2 ^ 52 + F < 2 ^ 63 := by
  norm_num at hF ⊢
  omega

theorem magnitude_pack_high (E m : Nat) (hE1 : 1075 ≤ E) (hE2 : E < 2046)
    (hm1 : 2 ^ 52 ≤ m) (hm2 : m ≤ 2 ^ 53) :
    (pack E m).magnitude = some (m * 2 ^ (E - 1075)) ∧ (pack E m).bits < 2 ^ 63 := by
  rcases Nat.lt_or_ge m (2 ^ 53) with hlt | hge
  · obtain ⟨h1, h2, h3⟩ := fields E (m - 2 ^ 52) (by omega) (by omega)
    refine ⟨?_, h3⟩
    unfold magnitude pack
    simp only [h1, h2]
    rw [if_neg (by omega), if_neg (by omega), if_pos hE1]
    have hm : 2 ^ 52 + (m - 2 ^ 52) = m := by omega
    rw [hm]
  · have hm : m = 2 ^ 53 := le_antisymm hm2 hge
    subst hm
    obtain ⟨h1, h2, h3⟩ := fields (E + 1) 0 (by omega) (by norm_num)
    have hbits : E * 2 ^ 52 + (2 ^ 53 - 2 ^ 52) = (E + 1) * 2 ^ 52 + 0 := by
      norm_num
      omega
    unfold magnitude pack
    simp only [hbits, h1, h2]
    refine ⟨?_, h3⟩
    rw [if_neg (by omega), if_neg (by omega), if_pos (by omega)]
    have hexp : E + 1 - 1075 = (E - 1075) + 1 := by omega
    have hval : (2 ^ 52 + 0) * (2 ^ (E - 1075) * 2) = 2 ^ 53 * 2 ^ (E - 1075) := by
      generalize 2 ^ (E - 1075) = x
      norm_num
      omega
    rw [hexp, pow_succ 2 (E - 1075), hval]

theorem magnitude_pack_low (E m : Nat) (hE1 : 1 ≤ E) (hE2 : E < 1075)
    (hm1 : 2 ^ 52 ≤ m) (hm2 : m < 2 ^ 53) :
    (pack E m).magnitude
      = (if m % 2 ^ (1075 - E) = 0 then some (m / 2 ^ (1075 - E)) else none) ∧
    (pack E m).bits < 2 ^ 63 := by
  obtain ⟨h1, h2, h3⟩ := fields E (m - 2 ^ 52) (by omega) (by omega)
  refine ⟨?_, h3⟩
  unfold magnitude pack
  simp only [h1, h2]
  rw [if_neg (by omega), if_neg (by omega), if_neg (by omega)]
  have hm : 2 ^ 52 + (m - 2 ^ 52) = m := by omega
  rw [hm]

theorem top_bit_spec (n k : Nat) (hn : n ≠ 0) (hlt : n < 2 ^ (k + 1)) :
    2 ^ top_bit n k ≤ n ∧ n < 2 ^ (top_bit n k + 1) ∧ top_bit n k ≤ k := by
  induction k with
  | zero =>
    refine ⟨?_, hlt, le_refl _⟩
    show 2 ^ 0 ≤ n
    exact Nat.one_le_iff_ne_zero.mpr hn
  | succ k ih =>
    unfold top_bit
    split
    · rename_i hge
      exact ⟨hge, hlt, le_refl _⟩
    · rename_i hnot
      obtain ⟨h1, h2, h3⟩ := ih (Nat.lt_of_not_le hnot)
      exact ⟨h1, h2, Nat.le_succ_of_le h3⟩

theorem of_nat_small (n : Nat) (hn : n ≠ 0) (hlt : n < 2 ^ 53) :
    (of_nat n).magnitude = some n ∧ (of_nat n).bits < 2 ^ 63 := by
  obtain ⟨hlow, hhigh, -⟩ := top_bit_spec n 63 hn
    (lt_trans hlt (Nat.pow_lt_pow_right (by decide) (by decide)))
  have he : top_bit n 63 ≤ 52 := by
    by_contra hcon
    have h53 : 2 ^ 53 ≤ 2 ^ top_bit n 63 :=
      Nat.pow_le_pow_right (by decide) (by omega)
    exact absurd (lt_of_le_of_lt (le_trans h53 hlow) hlt) (lt_irrefl _)
  have hof : of_nat n = pack (top_bit n 63 + 1023) (n * 2 ^ (52 - top_bit n 63)) := by
    unfold of_nat
    rw [if_neg hn, if_pos he]
  generalize top_bit n 63 = e at he hlow hhigh hof
  have hpos : 0 < 2 ^ (52 - e) := Nat.pow_pos (by decide)
  have hsplit : 2 ^ e * 2 ^ (52 - e) = 2 ^ 52 := by
    rw [← pow_add]
    congr 1
    omega
  have hsplit1 : 2 ^ (e + 1) * 2 ^ (52 - e) = 2 ^ 53 := by
    rw [← pow_add]
    congr 1
    omega
  have hm1 : 2 ^ 52 ≤ n * 2 ^ (52 - e) := by
    rw [← hsplit]
    exact Nat.mul_le_mul_right _ hlow
  have hm2 : n * 2 ^ (52 - e) < 2 ^ 53 := by
    rw [← hsplit1]
    exact Nat.mul_lt_mul_of_pos_right hhigh hpos
  rw [hof]
  rcases Nat.lt_or_ge e 52 with h52 | h52
  · obtain ⟨hmag, hbits⟩ := magnitude_pack_low (e + 1023) (n * 2 ^ (52 - e)) (by omega)
      (by omega) hm1 hm2
    refine ⟨?_, hbits⟩
    have hk : 1075 - (e + 1023) = 52 - e := by omega
    rw [hmag, hk, if_pos (Nat.mul_mod_left _ _), Nat.mul_div_cancel _ hpos]
  · obtain ⟨hmag, hbits⟩ := magnitude_pack_high (e + 1023) (n * 2 ^ (52 - e)) (by omega)
      (by omega) hm1 (le_of_lt hm2)
    refine ⟨?_, hbits⟩
    have he52 : e = 52 := le_antisymm he h52
    subst he52
    rw [hmag]
    simp

theorem round_shift_bounds (n s : Nat) (hs : 1 ≤ s) (hlow : 2 ^ (52 + s) ≤ n)
    (hhigh : n < 2 ^ (53 + s)) :
    2 ^ 52 ≤ round_shift n s ∧ round_shift n s ≤ 2 ^ 53 ∧
    2 * (round_shift n s * 2 ^ s - n) ≤ 2 ^ s ∧
    2 * (n - round_shift n s * 2 ^ s) ≤ 2 ^ s := by
  have hpos : 0 < 2 ^ s := Nat.pow_pos (by decide)
  have hq1 : 2 ^ 52 ≤ n / 2 ^ s := by
    rw [Nat.le_div_iff_mul_le hpos, ← pow_add]
    exact hlow
  have hq2 : n / 2 ^ s < 2 ^ 53 := by
    rw [Nat.div_lt_iff_lt_mul hpos, ← pow_add]
    exact hhigh
  have hdm : 2 ^ s * (n / 2 ^ s) + n % 2 ^ s = n := Nat.div_add_mod n (2 ^ s)
  have hr : n % 2 ^ s < 2 ^ s := Nat.mod_lt n hpos
  have hP : 2 ^ s = 2 * 2 ^ (s - 1) := by
    rw [← pow_succ']
    congr 1
    omega
  unfold round_shift
  generalize n / 2 ^ s = q at hq1 hq2 hdm ⊢
  generalize n % 2 ^ s = r at hdm hr ⊢
  rw [hP] at hdm hr ⊢
  generalize 2 ^ (s - 1) = H at hdm hr ⊢
  split
  · rename_i hup
    have hge : H ≤ r := by
      rcases hup with h | h
      · exact le_of_lt h
      · exact le_of_eq h.1.symm
    have hmul : (q + 1) * (2 * H) = 2 * H * q + 2 * H := by ring
    rw [hmul]
    norm_num at hq1 hq2 ⊢
    omega
  · rename_i hdown
    have hle : r ≤ H := by
      by_contra hcon
      exact hdown (Or.inl (by omega))
    have hmul : q * (2 * H) = 2 * H * q := by ring
    rw [hmul]
    norm_num at hq1 hq2 ⊢
    omega

theorem of_nat_large (n : Nat) (hge : 2 ^ 53 ≤ n) (hlt : n < 2 ^ 64) :
    ∃ w, (of_nat n).magnitude = some w ∧ (of_nat n).bits < 2 ^ 63 ∧
      2 ^ 53 * (w - n) ≤ n ∧ 2 ^ 53 * (n - w) ≤ n := by
  have hn : n ≠ 0 := by
    intro h0
    rw [h0] at hge
    exact absurd hge (by norm_num)
  obtain ⟨hlow, hhigh, he2⟩ := top_bit_spec n 63 hn hlt
  have he1 : 53 ≤ top_bit n 63 := by
    by_contra hcon
    have h53 : 2 ^ (top_bit n 63 + 1) ≤ 2 ^ 53 :=
      Nat.pow_le_pow_right (by decide) (by omega)
    exact absurd (lt_of_lt_of_le hhigh (le_trans h53 hge)) (lt_irrefl _)
  have hof : of_nat n = pack (top_bit n 63 + 1023) (round_shift n (top_bit n 63 - 52)) := by
    unfold of_nat
    rw [if_neg hn, if_neg (by omega)]
  generalize top_bit n 63 = e at he1 he2 hlow hhigh hof ⊢
  have hexp1 : 52 + (e - 52) = e := by omega
  have hexp2 : 53 + (e - 52) = e + 1 := by omega
  obtain ⟨hr1, hr2, hr3, hr4⟩ := round_shift_bounds n (e - 52) (by omega)
    (by rw [hexp1]; exact hlow) (by rw [hexp2]; exact hhigh)
  obtain ⟨hmag, hbits⟩ := magnitude_pack_high (e + 1023) (round_shift n (e - 52))
    (by omega) (by omega) hr1 hr2
  have hk : e + 1023 - 1075 = e - 52 := by omega
  rw [hk] at hmag
  rw [hof]
  have hscale : 2 ^ 52 * 2 ^ (e - 52) = 2 ^ e := by
    rw [← pow_add, hexp1]
  have hulp : 2 ^ 52 * 2 ^ (e - 52) ≤ n := by rw [hscale]; exact hlow
  refine ⟨_, hmag, hbits, ?_, ?_⟩
  · generalize round_shift n (e - 52) * 2 ^ (e - 52) - n = x at hr3 ⊢
    generalize 2 ^ (e - 52) = u at hr3 hulp ⊢
    norm_num at hulp ⊢
    omega
  · generalize n - round_shift n (e - 52) * 2 ^ (e - 52) = x at hr4 ⊢
    generalize 2 ^ (e - 52) = u at hr4 hulp ⊢
    norm_num at hulp ⊢
    omega

theorem of_nat_exact (n : Nat) (hle : n ≤ 2 ^ 53) :
    (of_nat n).magnitude = some n ∧ (of_nat n).bits < 2 ^ 63 := by
  rcases Nat.lt_or_ge n (2 ^ 53) with hlt | hge
  · by_cases hn : n = 0
    · subst hn
      decide
    · exact of_nat_small n hn hlt
  · have h53 : n = 2 ^ 53 := le_antisymm hle hge
    subst h53
    decide

theorem of_nat_near (n : Nat) (hlt : n < 2 ^ 64) :
    ∃ w, (of_nat n).magnitude = some w ∧ (of_nat n).bits < 2 ^ 63 ∧
      2 ^ 53 * (w - n) ≤ n ∧ 2 ^ 53 * (n - w) ≤ n := by
  rcases Nat.lt_or_ge n (2 ^ 53) with hsmall | hlarge
  · obtain ⟨hmag, hbits⟩ := of_nat_exact n (le_of_lt hsmall)
    refine ⟨n, hmag, hbits, ?_, ?_⟩ <;> simp
  · exact of_nat_large n hlarge hlt

theorem to_int_of_magnitude (d : Double) (w : Nat) (hmag : d.magnitude = some w)
    (hbits : d.bits < 2 ^ 63) :
    d.to_int = some (w : Int) ∧ to_int ⟨2 ^ 63 + d.bits⟩ = some (-(w : Int)) := by
  have hsign0 : d.bits / 2 ^ 63 % 2 = 0 := by
    norm_num at hbits ⊢
    omega
  have hsign1 : (2 ^ 63 + d.bits) / 2 ^ 63 % 2 = 1 := by
    norm_num at hbits ⊢
    omega
  have hE : (2 ^ 63 + d.bits) / 2 ^ 52 % 2048 = d.bits / 2 ^ 52 % 2048 := by
    norm_num
    omega
  have hF : (2 ^ 63 + d.bits) % 2 ^ 52 = d.bits % 2 ^ 52 := by
    norm_num
    omega
  have hneg : magnitude ⟨2 ^ 63 + d.bits⟩ = some w := by
    rw [← hmag]
    unfold magnitude
    simp only [hE, hF]
  constructor
  · unfold to_int
    rw [hmag]
    simp only [hsign0]
    rfl
  · unfold to_int
    rw [hneg]
    simp only [hsign1]
    rfl

theorem of_int_exact (i : Int) (hle : i.natAbs ≤ 2 ^ 53) : (of_int i).to_int = some i := by
  cases i with
  | ofNat n =>
    obtain ⟨hmag, hbits⟩ := of_nat_exact n hle
    exact (to_int_of_magnitude _ n hmag hbits).1
  | negSucc k =>
    obtain ⟨hmag, hbits⟩ := of_nat_exact (k + 1) hle
    exact (to_int_of_magnitude _ (k + 1) hmag hbits).2

theorem of_nat_to_int_near (n : Nat) (hlt : n < 2 ^ 64) :
    ∃ w : Int, (of_nat n).to_int = some w ∧ 2 ^ 53 * (w - (n : Int)).natAbs ≤ n := by
  obtain ⟨w, hmag, hbits, h1, h2⟩ := of_nat_near n hlt
  refine ⟨w, (to_int_of_magnitude _ w hmag hbits).1, ?_⟩
  norm_num at h1 h2 ⊢
  omega

theorem of_int_near (i : Int) (hlow : -(2 ^ 63) ≤ i) (hhigh : i < 2 ^ 63) :
    ∃ w : Int, (of_int i).to_int = some w ∧ 2 ^ 53 * (w - i).natAbs ≤ i.natAbs := by
  cases i with
  | ofNat n =>
    have hn : n < 2 ^ 64 := by
      have : (n : Int) < 2 ^ 63 := hhigh
      norm_num at this ⊢
      omega
    exact of_nat_to_int_near n hn
  | negSucc k =>
    have hn : k + 1 < 2 ^ 64 := by
      have : -(2 ^ 63) ≤ Int.negSucc k := hlow
      rw [Int.negSucc_eq] at this
      norm_num at this ⊢
      omega
    obtain ⟨w, hmag, hbits, h1, h2⟩ := of_nat_near (k + 1) hn
    refine ⟨-(w : Int), (to_int_of_magnitude _ w hmag hbits).2, ?_⟩
    show 2 ^ 53 * (-(w : Int) - Int.negSucc k).natAbs ≤ k + 1
    rw [Int.negSucc_eq]
    norm_num at h1 h2 ⊢
    omega

end Double

/-! ## Lemmas shared by the theorems -/

section Lemmas

variable {σ : Type}

theorem AgentOp.run_id (op : AgentOp) (a : Agent σ) : (op.run a)._id = a._id := by
  cases op <;> rfl

theorem AgentOp.run_specification (op : AgentOp) (a : Agent σ) :
    (op.run a)._specification = a._specification := by
  cases op <;> rfl

theorem AgentOp.run_body (op : AgentOp) (a : Agent σ) : (op.run a)._body = a._body := by
  cases op <;> rfl

theorem AgentOp.run_alive (op : AgentOp) (a : Agent σ) :
    (op.run a)._alive = true → a._alive = true := by
  cases op <;> simp [AgentOp.run, Agent.mark_for_removal, Agent.label, Agent.clear_label,
    Agent.decorate, Agent.set_destroyer]

theorem AgentOp.run_all_body (ops : List AgentOp) (a : Agent σ) :
    (AgentOp.run_all ops a)._body = a._body := by
  induction ops generalizing a with
  | nil => rfl
  | cons op rest ih =>
    show (AgentOp.run_all rest (op.run a))._body = a._body
    rw [ih, AgentOp.run_body]

theorem AgentOp.run_all_specification (ops : List AgentOp) (a : Agent σ) :
    (AgentOp.run_all ops a)._specification = a._specification := by
  induction ops generalizing a with
  | nil => rfl
  | cons op rest ih =>
    show (AgentOp.run_all rest (op.run a))._specification = a._specification
    rw [ih, AgentOp.run_specification]

theorem AgentOp.run_all_alive (ops : List AgentOp) (a : Agent σ) :
    (AgentOp.run_all ops a)._alive = true → a._alive = true := by
  induction ops generalizing a with
  | nil => exact id
  | cons op rest ih =>
    intro h
    exact AgentOp.run_alive op a (ih (op.run a) h)

theorem fresh_gt (used : List Ptr) : ∀ x ∈ used, x < fresh used := by
  induction used with
  | nil => intro x hx; cases hx
  | cons y rest ih =>
    intro x hx
    rcases List.mem_cons.mp hx with h | h
    · subst h
      show x < max (x + 1) (fresh rest)
      exact lt_of_lt_of_le (Nat.lt_succ_self x) (le_max_left _ _)
    · show x < max (y + 1) (fresh rest)
      exact lt_of_lt_of_le (ih x h) (le_max_right _ _)

theorem fresh_not_mem (used : List Ptr) : fresh used ∉ used :=
  fun h => lt_irrefl _ (fresh_gt used _ h)

theorem fresh_ne_zero (used : List Ptr) : fresh used ≠ 0 := by
  cases used with
  | nil => decide
  | cons y rest =>
    show max (y + 1) (fresh rest) ≠ 0
    have h : y + 1 ≤ max (y + 1) (fresh rest) := le_max_left _ _
    exact Nat.ne_of_gt (lt_of_lt_of_le (Nat.succ_pos y) h)

theorem map_erase_no_entry {V : Type} (key : String) (table : List (String × V)) :
    (map_erase key table).filter (fun kv => decide (kv.1 = key)) = [] := by
  unfold map_erase
  rw [List.filter_filter]
  apply List.filter_eq_nil_iff.mpr
  intro kv _
  simp

theorem Memory.mark_for_removal_body (m : Memory σ) (p q : Ptr) :
    ((m.mark_for_removal p).obj q)._body = (m.obj q)._body := by
  unfold Memory.mark_for_removal Memory.modify
  by_cases h : q = p
  · subst h; simp [Agent.mark_for_removal]
  · simp [Function.update_noteq h]

theorem Memory.mark_for_removal_dead (m : Memory σ) (p q : Ptr)
    (h : q = p ∨ (m.obj q)._alive = false) :
    ((m.mark_for_removal p).obj q)._alive = false := by
  unfold Memory.mark_for_removal Memory.modify
  by_cases hq : q = p
  · subst hq; simp [Agent.mark_for_removal]
  · rcases h with h | h
    · exact absurd h hq
    · simpa [Function.update_noteq hq] using h

theorem mark_all_world (agents : List Ptr) (m : Memory σ) :
    (agents.foldl (fun s agent => World.mark_visitor agent s) m).world = m.world := by
  induction agents generalizing m with
  | nil => rfl
  | cons p rest ih => rw [List.foldl_cons, ih]; rfl

theorem mark_all_body (agents : List Ptr) (m : Memory σ) (q : Ptr) :
    ((agents.foldl (fun s agent => World.mark_visitor agent s) m).obj q)._body
      = (m.obj q)._body := by
  induction agents generalizing m with
  | nil => rfl
  | cons p rest ih =>
    rw [List.foldl_cons, ih]
    exact Memory.mark_for_removal_body m p q

theorem mark_all_dead (agents : List Ptr) (m : Memory σ) (q : Ptr)
    (h : q ∈ agents ∨ (m.obj q)._alive = false) :
    ((agents.foldl (fun s agent => World.mark_visitor agent s) m).obj q)._alive = false := by
  induction agents generalizing m with
  | nil =>
    rcases h with h | h
    · cases h
    · exact h
  | cons p rest ih =>
    rw [List.foldl_cons]
    apply ih
    rcases h with h | h
    · rcases List.mem_cons.mp h with hp | hr
      · exact Or.inr (Memory.mark_for_removal_dead m p q (Or.inl hp))
      · exact Or.inl hr
    · exact Or.inr (Memory.mark_for_removal_dead m p q (Or.inr h))

theorem update_agents_all_dead (agent_update : Ptr → Memory σ → Memory σ)
    (agents : List Ptr) (m : Memory σ) (h : ∀ p ∈ agents, m.is_alive p = false) :
    agents.foldl (fun s agent => if s.is_alive agent then agent_update agent s else s) m
      = m := by
  induction agents with
  | nil => rfl
  | cons p rest ih =>
    rw [List.foldl_cons, h p (List.mem_cons_self p rest)]
    exact ih (fun q hq => h q (List.mem_cons_of_mem p hq))

theorem Block.destroy_agent_obj (p : Ptr) (m : Memory σ) :
    (Block.destroy_agent p m).obj = m.obj := by
  unfold Block.destroy_agent enviro.destroy_agent Agent.destruct
  by_cases h : p = 0 <;> simp [h]

theorem Block.destroy_agent_agents (p : Ptr) (m : Memory σ) :
    (Block.destroy_agent p m).world.agents = m.world.agents := by
  unfold Block.destroy_agent enviro.destroy_agent Agent.destruct
  by_cases h : p = 0 <;> simp [h]

theorem Block.destroy_agent_bodies (p : Ptr) (m : Memory σ) (b : Ptr)
    (hb : b ∈ (Block.destroy_agent p m).world.space.bodies) :
    b ∈ m.world.space.bodies ∧ (p ≠ 0 → (m.obj p)._body ≠ b) := by
  unfold Block.destroy_agent enviro.destroy_agent Agent.destruct at hb
  by_cases h : p = 0
  · simp [h] at hb
    exact ⟨hb, fun hne => absurd h hne⟩
  · simp [h] at hb
    exact ⟨hb.1, fun _ heq => hb.2 heq.symm⟩

theorem destroy_all (dead : List Ptr) (m : Memory σ) :
    (dead.foldl (fun s agent => Block.destroy_agent agent s) m).obj = m.obj ∧
    (dead.foldl (fun s agent => Block.destroy_agent agent s) m).world.agents
      = m.world.agents ∧
    ∀ b ∈ (dead.foldl (fun s agent => Block.destroy_agent agent s) m).world.space.bodies,
      b ∈ m.world.space.bodies ∧ ∀ p ∈ dead, p ≠ 0 → (m.obj p)._body ≠ b := by
  induction dead generalizing m with
  | nil => exact ⟨rfl, rfl, fun b hb => ⟨hb, fun p hp => by cases hp⟩⟩
  | cons d rest ih =>
    rw [List.foldl_cons]
    obtain ⟨hobj, hagents, hbodies⟩ := ih (Block.destroy_agent d m)
    refine ⟨?_, ?_, ?_⟩
    · rw [hobj, Block.destroy_agent_obj]
    · rw [hagents, Block.destroy_agent_agents]
    · intro b hb
      obtain ⟨hb1, hrest⟩ := hbodies b hb
      obtain ⟨hb0, hd⟩ := Block.destroy_agent_bodies d m b hb1
      refine ⟨hb0, ?_⟩
      intro p hp hp0
      rcases List.mem_cons.mp hp with h | h
      · subst h; exact hd hp0
      · have := hrest p h hp0
        rwa [Block.destroy_agent_obj] at this

theorem World.add_agent_well_formed (m : Memory σ) (agent : Ptr)
    (hwf : World.well_formed m) (hagent : agent ≠ 0) :
    World.well_formed (World.add_agent m agent) := by
  unfold World.add_agent
  split
  · exact hwf
  · obtain ⟨hnull, hbodies⟩ := hwf
    constructor
    · intro q hq
      rcases List.mem_append.mp hq with h | h
      · exact hnull q h
      · rw [List.mem_singleton.mp h]; exact hagent
    · intro b hb
      rcases List.mem_append.mp hb with h | h
      · obtain ⟨q, hq, hqb⟩ := hbodies b h
        exact ⟨q, List.mem_append_left _ hq, hqb⟩
      · exact ⟨agent, List.mem_append_right _ (List.mem_singleton_self agent),
          (List.mem_singleton.mp h).symm⟩

theorem World.well_formed_of_empty (m : Memory σ) (hagents : m.world.agents = [])
    (hbodies : m.world.space.bodies = []) : World.well_formed m := by
  constructor
  · intro q hq
    rw [hagents] at hq
    cases hq
  · intro b hb
    rw [hbodies] at hb
    cases hb

theorem World.all_mark_well_formed (m : Memory σ) (hwf : World.well_formed m) :
    World.well_formed (World.all m World.mark_visitor) := by
  have hworld : (World.all m World.mark_visitor).world = m.world :=
    mark_all_world m.world.agents m
  obtain ⟨hnull, hbodies⟩ := hwf
  constructor
  · intro q hq
    rw [hworld] at hq
    exact hnull q hq
  · intro b hb
    rw [hworld] at hb
    obtain ⟨q, hq, hqb⟩ := hbodies b hb
    refine ⟨q, by rw [hworld]; exact hq, ?_⟩
    rw [← hqb]
    exact mark_all_body m.world.agents m q

theorem World.reap_well_formed (m : Memory σ) (hwf : World.well_formed m) :
    World.well_formed (World.reap m) := by
  obtain ⟨hnull, hbodies⟩ := hwf
  unfold World.reap
  obtain ⟨hobj, hagents, hleft⟩ := destroy_all
    (m.world.agents.filter (fun agent => !m.is_alive agent))
    { m with world := { m.world with
        agents := m.world.agents.filter (fun agent => m.is_alive agent) } }
  constructor
  · intro q hq
    rw [hagents] at hq
    exact hnull q (List.mem_filter.mp hq).1
  · intro b hb
    obtain ⟨hb0, hnone⟩ := hleft b hb
    obtain ⟨q, hq, hqb⟩ := hbodies b hb0
    by_cases halive : m.is_alive q = true
    · refine ⟨q, ?_, ?_⟩
      · rw [hagents]
        exact List.mem_filter.mpr ⟨hq, halive⟩
      · rw [hobj]
        exact hqb
    · exfalso
      apply hnone q (List.mem_filter.mpr ⟨hq, by simpa using halive⟩) (hnull q hq)
      exact hqb

theorem json.number_as_double_exact (v : json) (hfits : v.fits_double = true) :
    v.is_exactly v.number_as_double = true := by
  cases v with
  | number_float x => simp [json.is_exactly, json.number_as_double]
  | number_integer i =>
    have hle : i.natAbs ≤ 2 ^ 53 := by simpa [json.fits_double] using hfits
    simp [json.is_exactly, json.number_as_double, Double.of_int_exact i hle]
  | number_unsigned n =>
    have hle : n ≤ 2 ^ 53 := by simpa [json.fits_double] using hfits
    obtain ⟨hmag, hbits⟩ := Double.of_nat_exact n hle
    simp [json.is_exactly, json.number_as_double,
      (Double.to_int_of_magnitude _ n hmag hbits).1]
  | null => simp [json.fits_double] at hfits
  | boolean b => simp [json.fits_double] at hfits
  | string t => simp [json.fits_double] at hfits
  | array xs => simp [json.fits_double] at hfits
  | object ms => simp [json.fits_double] at hfits

theorem json.number_as_double_rounding (v : json) (hrange : v.in_range = true) :
    v.is_rounding v.number_as_double = true := by
  cases v with
  | number_float x => simp [json.is_rounding, json.number_as_double]
  | number_integer i =>
    have hr : -(2 ^ 63) ≤ i ∧ i < 2 ^ 63 := by simpa [json.in_range] using hrange
    obtain ⟨w, hw, hbound⟩ := Double.of_int_near i hr.1 hr.2
    simpa [json.is_rounding, json.number_as_double, Double.is_rounding_of, hw] using hbound
  | number_unsigned n =>
    have hr : n < 2 ^ 64 := by simpa [json.in_range] using hrange
    obtain ⟨w, hw, hbound⟩ := Double.of_nat_to_int_near n hr
    simpa [json.is_rounding, json.number_as_double, Double.is_rounding_of, hw] using hbound
  | null => simp [json.in_range] at hrange
  | boolean b => simp [json.in_range] at hrange
  | string t => simp [json.in_range] at hrange
  | array xs => simp [json.in_range] at hrange
  | object ms => simp [json.in_range] at hrange

theorem Agent.linear_friction_of_member (a : Agent σ) (lin : json)
    (hlin : json.member_at ["definition", "friction", "linear"] a._specification = some lin)
    (hnumber : lin.is_number = true) :
    a.linear_friction = some lin.number_as_double := by
  unfold Agent.linear_friction Agent.friction Agent.definition json.at_const
  cases hs : a._specification <;> rw [hs] at hlin <;> simp [json.member_at] at hlin
  rename_i members
  cases hd : json.find_member "definition" members <;> rw [hd] at hlin <;> simp at hlin
  rename_i d
  cases d <;> simp [json.member_at] at hlin
  rename_i dmembers
  cases hf : json.find_member "friction" dmembers <;> rw [hf] at hlin <;> simp at hlin
  rename_i f
  cases f <;> simp [json.member_at] at hlin
  rename_i fmembers
  cases hv : json.find_member "linear" fmembers <;> rw [hv] at hlin <;> simp at hlin
  subst hlin
  simp [json.at_mut, hd, hf, hv, json.get_cpFloat, hnumber]

theorem Agent.rotational_friction_of_member (a : Agent σ) (rot : json)
    (hrot : json.member_at ["definition", "friction", "rotational"] a._specification
      = some rot)
    (hnumber : rot.is_number = true) :
    a.rotational_friction = some rot.number_as_double := by
  unfold Agent.rotational_friction Agent.friction Agent.definition json.at_const
  cases hs : a._specification <;> rw [hs] at hrot <;> simp [json.member_at] at hrot
  rename_i members
  cases hd : json.find_member "definition" members <;> rw [hd] at hrot <;> simp at hrot
  rename_i d
  cases d <;> simp [json.member_at] at hrot
  rename_i dmembers
  cases hf : json.find_member "friction" dmembers <;> rw [hf] at hrot <;> simp at hrot
  rename_i f
  cases f <;> simp [json.member_at] at hrot
  rename_i fmembers
  cases hv : json.find_member "rotational" fmembers <;> rw [hv] at hrot <;> simp at hrot
  subst hrot
  simp [json.at_mut, hd, hf, hv, json.get_cpFloat, hnumber]

end Lemmas

/-! ## Theorems -/

section Claims

variable {σ : Type}

/-- C1: `mark_for_removal` is idempotent.  For every agent state, marking twice
gives exactly the state that marking once gives, on the object and on the
whole program state, and `is_alive()` is false after one call and after two. -/
theorem mark_for_removal_idempotent (s : Agent σ) (m : Memory σ) (this : Ptr) :
    s.mark_for_removal.mark_for_removal = s.mark_for_removal ∧
    s.mark_for_removal.is_alive = false ∧
    s.mark_for_removal.mark_for_removal.is_alive = false ∧
    (m.mark_for_removal this).mark_for_removal this = m.mark_for_removal this ∧
    (m.mark_for_removal this).is_alive this = false ∧
    ((m.mark_for_removal this).mark_for_removal this).is_alive this = false := by
  refine ⟨rfl, rfl, rfl, ?_, ?_, ?_⟩
  · simp [Memory.mark_for_removal, Memory.modify, Agent.mark_for_removal]
  · simp [Memory.mark_for_removal, Memory.modify, Memory.is_alive, Agent.mark_for_removal,
      Agent.is_alive]
  · simp [Memory.mark_for_removal, Memory.modify, Memory.is_alive, Agent.mark_for_removal,
      Agent.is_alive]

/-- C2: removal is deferred.  After `mark_for_removal` on the agent at `this`,
`is_alive()` is false; the agent's body, shape, destroyer, id, specification,
sub-processes, sensors, world pointer, collision handler table, moment of
inertia, visibility, client id, decoration and label fields are what they
were; no other object changes; and the World (its agent registry and its
space), the allocated instances, the engine's objects and the id counter are
not modified. -/
theorem mark_for_removal_frame (m : Memory σ) (this : Ptr) :
    (m.mark_for_removal this).is_alive this = false ∧
    ((m.mark_for_removal this).obj this)._body = (m.obj this)._body ∧
    ((m.mark_for_removal this).obj this)._shape = (m.obj this)._shape ∧
    ((m.mark_for_removal this).obj this)._destroyer = (m.obj this)._destroyer ∧
    ((m.mark_for_removal this).obj this)._id = (m.obj this)._id ∧
    ((m.mark_for_removal this).obj this)._specification = (m.obj this)._specification ∧
    ((m.mark_for_removal this).obj this)._processes = (m.obj this)._processes ∧
    ((m.mark_for_removal this).obj this)._sensors = (m.obj this)._sensors ∧
    ((m.mark_for_removal this).obj this)._world_ptr = (m.obj this)._world_ptr ∧
    ((m.mark_for_removal this).obj this).collision_handlers
      = (m.obj this).collision_handlers ∧
    ((m.mark_for_removal this).obj this)._moment_of_inertia
      = (m.obj this)._moment_of_inertia ∧
    ((m.mark_for_removal this).obj this)._invisible = (m.obj this)._invisible ∧
    ((m.mark_for_removal this).obj this)._client_id = (m.obj this)._client_id ∧
    ((m.mark_for_removal this).obj this)._decoration = (m.obj this)._decoration ∧
    ((m.mark_for_removal this).obj this)._label = (m.obj this)._label ∧
    ((m.mark_for_removal this).obj this)._label_x = (m.obj this)._label_x ∧
    ((m.mark_for_removal this).obj this)._label_y = (m.obj this)._label_y ∧
    (m.mark_for_removal this).obj
      = Function.update m.obj this { m.obj this with _alive := false } ∧
    (m.mark_for_removal this).world = m.world ∧
    (m.mark_for_removal this).world.agents = m.world.agents ∧
    (m.mark_for_removal this).live = m.live ∧
    (m.mark_for_removal this).engine = m.engine ∧
    (m.mark_for_removal this).next_id = m.next_id := by
  simp [Memory.mark_for_removal, Memory.modify, Memory.is_alive, Agent.mark_for_removal,
    Agent.is_alive]

/-- C8: the agent id is stable.  For every agent and every state-changing
member function defined in agent.h (`mark_for_removal`, `label`, `clear_label`,
`decorate`, `set_destroyer`, with any arguments), `get_id()` returns after the
call what it returned before, and so after any sequence of such calls. -/
theorem get_id_stable (a : Agent σ) (str svg : String) (x y : cpFloat) (f : Ptr)
    (op : AgentOp) (ops : List AgentOp) :
    a.mark_for_removal.get_id = a.get_id ∧
    (a.label str x y).get_id = a.get_id ∧
    a.clear_label.get_id = a.get_id ∧
    (a.decorate svg).get_id = a.get_id ∧
    (a.set_destroyer f).get_id = a.get_id ∧
    (op.run a).get_id = a.get_id ∧
    (AgentOp.run_all ops a).get_id = a.get_id := by
  refine ⟨rfl, rfl, rfl, rfl, rfl, AgentOp.run_id op a, ?_⟩
  induction ops generalizing a with
  | nil => rfl
  | cons o rest ih =>
    show (AgentOp.run_all rest (o.run a)).get_id = a.get_id
    rw [ih]
    exact AgentOp.run_id o a

/-- C10: label operations touch only label state.  `label(s, x, y)` sets the
label text to `s` and the label position to `(x, y)`; `clear_label()` sets the
label text to the empty string and leaves the label position; each leaves
every other field of the agent (liveness and id among them) as it was, returns
the agent it was called on, and changes nothing else in the program state. -/
theorem label_touches_only_label_state (a : Agent σ) (m : Memory σ) (this : Ptr)
    (s : String) (x y : cpFloat) :
    ((a.label s x y)._label = s ∧ (a.label s x y)._label_x = x ∧
      (a.label s x y)._label_y = y) ∧
    ((a.label s x y)._body = a._body ∧ (a.label s x y)._shape = a._shape ∧
      (a.label s x y)._destroyer = a._destroyer ∧ (a.label s x y)._id = a._id ∧
      (a.label s x y)._specification = a._specification ∧
      (a.label s x y)._processes = a._processes ∧
      (a.label s x y)._sensors = a._sensors ∧
      (a.label s x y)._world_ptr = a._world_ptr ∧
      (a.label s x y).collision_handlers = a.collision_handlers ∧
      (a.label s x y)._alive = a._alive ∧
      (a.label s x y)._moment_of_inertia = a._moment_of_inertia ∧
      (a.label s x y)._invisible = a._invisible ∧
      (a.label s x y)._client_id = a._client_id ∧
      (a.label s x y)._decoration = a._decoration) ∧
    (a.clear_label._label = "" ∧ a.clear_label._label_x = a._label_x ∧
      a.clear_label._label_y = a._label_y) ∧
    (a.clear_label._body = a._body ∧ a.clear_label._shape = a._shape ∧
      a.clear_label._destroyer = a._destroyer ∧ a.clear_label._id = a._id ∧
      a.clear_label._specification = a._specification ∧
      a.clear_label._processes = a._processes ∧
      a.clear_label._sensors = a._sensors ∧
      a.clear_label._world_ptr = a._world_ptr ∧
      a.clear_label.collision_handlers = a.collision_handlers ∧
      a.clear_label._alive = a._alive ∧
      a.clear_label._moment_of_inertia = a._moment_of_inertia ∧
      a.clear_label._invisible = a._invisible ∧
      a.clear_label._client_id = a._client_id ∧
      a.clear_label._decoration = a._decoration) ∧
    ((a.label s x y).is_alive = a.is_alive ∧ (a.label s x y).get_id = a.get_id ∧
      a.clear_label.is_alive = a.is_alive ∧ a.clear_label.get_id = a.get_id) ∧
    ((m.label this s x y).1 = this ∧ (m.clear_label this).1 = this) ∧
    ((m.label this s x y).2.obj = Function.update m.obj this ((m.obj this).label s x y) ∧
      (m.label this s x y).2.world = m.world ∧ (m.label this s x y).2.live = m.live ∧
      (m.label this s x y).2.engine = m.engine ∧
      (m.label this s x y).2.next_id = m.next_id) ∧
    ((m.clear_label this).2.obj = Function.update m.obj this (m.obj this).clear_label ∧
      (m.clear_label this).2.world = m.world ∧ (m.clear_label this).2.live = m.live ∧
      (m.clear_label this).2.engine = m.engine ∧
      (m.clear_label this).2.next_id = m.next_id) := by
  simp [Agent.label, Agent.clear_label, Agent.is_alive, Agent.get_id, Memory.label,
    Memory.clear_label, Memory.modify]

/-- C6: `is_static` is fixed by the specification.  `is_static()` returns true
exactly when the specification's `definition.type` is the string "static";
and it returns the same before and after each of `mark_for_removal`, `label`,
`clear_label`, `decorate`, `set_destroyer`, and after any sequence of them. -/
theorem is_static_fixed_by_specification (a : Agent σ) (op : AgentOp)
    (ops : List AgentOp) :
    (a.is_static = some true ↔
      json.member_at ["definition", "type"] a._specification
        = some (json.string "static")) ∧
    (op.run a).is_static = a.is_static ∧
    (AgentOp.run_all ops a).is_static = a.is_static := by
  refine ⟨?_, ?_, ?_⟩
  · unfold Agent.is_static json.at_const
    cases hs : a._specification <;> simp [json.member_at]
    rename_i members
    cases hd : json.find_member "definition" members with
    | none => simp
    | some d =>
      cases d <;> simp [json.member_at, json.at_const]
      rename_i dmembers
      cases ht : json.find_member "type" dmembers with
      | none => simp
      | some t => cases t <;> simp [json.member_at, json.eq_string]
  · unfold Agent.is_static
    rw [AgentOp.run_specification]
  · unfold Agent.is_static
    rw [AgentOp.run_all_specification]

/-- C9 as stated fails on the code.  The specification of this agent holds the
integer 2^53 + 1 = 9007199254740993 as both friction coefficients (one as a
signed, one as an unsigned number); `linear_friction()` and
`rotational_friction()` return the double 9007199254740992, which is not that
value. -/
theorem friction_not_exact_beyond_two_pow_53 :
    (json.member_at ["definition", "friction", "linear"] Sample.large_agent._specification
        = some (json.number_integer 9007199254740993) ∧
      (json.number_integer 9007199254740993).is_number = true) ∧
    (json.member_at ["definition", "friction", "rotational"]
        Sample.large_agent._specification = some (json.number_unsigned 9007199254740993) ∧
      (json.number_unsigned 9007199254740993).is_number = true) ∧
    Sample.large_agent.linear_friction.bind Double.to_int = some 9007199254740992 ∧
    Sample.large_agent.rotational_friction.bind Double.to_int = some 9007199254740992 ∧
    Sample.large_agent.linear_friction.map
      (json.number_integer 9007199254740993).is_exactly = some false ∧
    Sample.large_agent.rotational_friction.map
      (json.number_unsigned 9007199254740993).is_exactly = some false :=
  ⟨⟨rfl, rfl⟩, ⟨rfl, rfl⟩, by decide, by decide, by decide, by decide⟩

/-- C9, amended: for every agent whose specification holds numbers at
`definition.friction.linear` and `definition.friction.rotational`,
`linear_friction()` and `rotational_friction()` return those two numbers
converted to `double`.  The returned value is exactly the number when it is
stored as a double or is an integer of magnitude at most 2^53; for every number
of the 64-bit integer range it is the number rounded to a double, an
integer-valued double at most `|number| / 2^53` away.  The getters return the
same after each of `mark_for_removal`, `label`, `clear_label`, `decorate`,
`set_destroyer` and after any sequence of them. -/
theorem friction_from_specification (a : Agent σ) (lin rot : json) (op : AgentOp)
    (ops : List AgentOp)
    (hlin : json.member_at ["definition", "friction", "linear"] a._specification = some lin)
    (hrot : json.member_at ["definition", "friction", "rotational"] a._specification
      = some rot)
    (hlin_number : lin.is_number = true) (hrot_number : rot.is_number = true) :
    a.linear_friction = some lin.number_as_double ∧
    a.rotational_friction = some rot.number_as_double ∧
    (lin.fits_double = true → a.linear_friction.map lin.is_exactly = some true) ∧
    (rot.fits_double = true → a.rotational_friction.map rot.is_exactly = some true) ∧
    (lin.in_range = true → a.linear_friction.map lin.is_rounding = some true) ∧
    (rot.in_range = true → a.rotational_friction.map rot.is_rounding = some true) ∧
    (op.run a).linear_friction = a.linear_friction ∧
    (op.run a).rotational_friction = a.rotational_friction ∧
    (AgentOp.run_all ops a).linear_friction = a.linear_friction ∧
    (AgentOp.run_all ops a).rotational_friction = a.rotational_friction := by
  have hl := Agent.linear_friction_of_member a lin hlin hlin_number
  have hr := Agent.rotational_friction_of_member a rot hrot hrot_number
  refine ⟨hl, hr, ?_, ?_, ?_, ?_, ?_, ?_, ?_, ?_⟩
  · intro hfits
    rw [hl, Option.map_some', json.number_as_double_exact lin hfits]
  · intro hfits
    rw [hr, Option.map_some', json.number_as_double_exact rot hfits]
  · intro hrange
    rw [hl, Option.map_some', json.number_as_double_rounding lin hrange]
  · intro hrange
    rw [hr, Option.map_some', json.number_as_double_rounding rot hrange]
  · unfold Agent.linear_friction Agent.friction Agent.definition
    rw [AgentOp.run_specification]
  · unfold Agent.rotational_friction Agent.friction Agent.definition
    rw [AgentOp.run_specification]
  · unfold Agent.linear_friction Agent.friction Agent.definition
    rw [AgentOp.run_all_specification]
  · unfold Agent.rotational_friction Agent.friction Agent.definition
    rw [AgentOp.run_all_specification]

/-- Witness for C9 amended: the static sample agent stores the integers 2 and
3 and reports the doubles 2.0 and 3.0, exactly and also after
`mark_for_removal`; the sample agent stores the doubles 0.1 and 0.5 and reports
them as they are. -/
theorem friction_from_specification_witness :
    (json.member_at ["definition", "friction", "linear"] Sample.static_agent._specification
        = some (json.number_integer 2) ∧
      json.member_at ["definition", "friction", "rotational"]
        Sample.static_agent._specification = some (json.number_unsigned 3)) ∧
    (Sample.static_agent.linear_friction = some ⟨0x4000000000000000⟩ ∧
      Sample.static_agent.rotational_friction = some ⟨0x4008000000000000⟩) ∧
    (Sample.static_agent.linear_friction.map (json.number_integer 2).is_exactly = some true ∧
      Sample.static_agent.rotational_friction.map (json.number_unsigned 3).is_exactly
        = some true) ∧
    Sample.static_agent.mark_for_removal.linear_friction
      = Sample.static_agent.linear_friction ∧
    (Sample.agent.linear_friction = some Sample.tenth ∧
      Sample.agent.rotational_friction = some Sample.half) :=
  have h := friction_from_specification Sample.static_agent (json.number_integer 2)
    (json.number_unsigned 3) AgentOp.mark_for_removal [] rfl rfl rfl rfl
  have g := friction_from_specification Sample.agent (json.number_float Sample.tenth)
    (json.number_float Sample.half) AgentOp.clear_label [] rfl rfl rfl rfl
  ⟨⟨rfl, rfl⟩, ⟨h.1, h.2.1⟩, ⟨h.2.2.1 rfl, h.2.2.2.1 rfl⟩, h.2.2.2.2.2.2.1, ⟨g.1, g.2.1⟩⟩

/-- C3 as stated fails on the code.  The sample agent is alive and has a body,
so "body exists iff alive" holds of it; right after `mark_for_removal()` its
body still exists while `is_alive()` is false. -/
theorem body_iff_alive_fails_after_mark_for_removal :
    (Sample.agent.body_exists = true ↔ Sample.agent.is_alive = true) ∧
    Sample.agent.mark_for_removal.body_exists = true ∧
    Sample.agent.mark_for_removal.is_alive = false ∧
    ¬ (Sample.agent.mark_for_removal.body_exists = true ↔
        Sample.agent.mark_for_removal.is_alive = true) := by
  decide

/-- C3, amended: for every agent state in which the body exists whenever
`is_alive()` is true, every state reached through `mark_for_removal`, `label`,
`clear_label`, `decorate` and `set_destroyer` has the same body and still has
the body whenever `is_alive()` is true; immediately after `mark_for_removal()`
`is_alive()` is false and the body is the one the agent had. -/
theorem alive_implies_body_through_operations (s : Agent σ) (ops : List AgentOp)
    (h : s.is_alive = true → s.body_exists = true) :
    ((AgentOp.run_all ops s).is_alive = true →
      (AgentOp.run_all ops s).body_exists = true) ∧
    (AgentOp.run_all ops s)._body = s._body ∧
    (AgentOp.run_all ops s).mark_for_removal.is_alive = false ∧
    (AgentOp.run_all ops s).mark_for_removal._body = s._body ∧
    (AgentOp.run_all ops s).mark_for_removal.body_exists = s.body_exists := by
  have hbody := AgentOp.run_all_body ops s
  refine ⟨?_, hbody, rfl, hbody, ?_⟩
  · intro halive
    have hs : s.body_exists = true := h (AgentOp.run_all_alive ops s halive)
    unfold Agent.body_exists at hs ⊢
    rw [hbody]
    exact hs
  · show decide ((AgentOp.run_all ops s)._body ≠ 0) = decide (s._body ≠ 0)
    rw [hbody]

/-- Witness for C3 amended: the sample agent, labelled and then marked for
removal, keeps its body and is no longer alive. -/
theorem alive_implies_body_through_operations_witness :
    (Sample.agent.is_alive = true → Sample.agent.body_exists = true) ∧
    (AgentOp.run_all [AgentOp.label "tag" 1 2, AgentOp.mark_for_removal]
      Sample.agent)._body = 1 ∧
    (AgentOp.run_all [AgentOp.label "tag" 1 2, AgentOp.mark_for_removal]
      Sample.agent).mark_for_removal.is_alive = false :=
  have h := alive_implies_body_through_operations Sample.agent
    [AgentOp.label "tag" 1 2, AgentOp.mark_for_removal] (fun _ => rfl)
  ⟨fun _ => rfl, h.2.1, h.2.2.1⟩

/-- C5: collision handler registration overwrites.  After
`notice_collisions_with(t, h1)` followed by `notice_collisions_with(t, h2)` the
handler table holds exactly one entry for `t`, and it is `h2`; so
`handle_collision` with an agent of type `t` has the effect of one invocation
of `h2` on the collision event, whatever `h1` is, and leaves the agent as it
is. -/
theorem notice_collisions_with_overwrites (type_name : Agent σ → String)
    (a other : Agent σ) (t : String) (h1 h2 : Handler σ) (s : σ)
    (hother : type_name other = t) :
    ((a.notice_collisions_with t h1).notice_collisions_with t h2).collision_handlers.filter
      (fun kv => decide (kv.1 = t)) = [(t, h2)] ∧
    map_find t ((a.notice_collisions_with t h1).notice_collisions_with t h2).collision_handlers
      = some h2 ∧
    Agent.handle_collision type_name
        ((a.notice_collisions_with t h1).notice_collisions_with t h2) other s
      = ((a.notice_collisions_with t h1).notice_collisions_with t h2,
          h2 { self_id := a._id, other_id := other._id, other_type := t } s) := by
  refine ⟨?_, ?_, ?_⟩
  · show ((t, h2) :: map_erase t (map_assign t h1 a.collision_handlers)).filter
      (fun kv => decide (kv.1 = t)) = [(t, h2)]
    rw [List.filter_cons_of_pos (by simp), map_erase_no_entry]
  · simp [Agent.notice_collisions_with, map_assign, map_find]
  · simp [Agent.handle_collision, Agent.notice_collisions_with, map_assign, map_find, hother]

/-- Witness for C5: on the sample agent, with handlers that write "first" and
"second" to a log, a collision with a "static"-typed agent after the two
registrations writes "second" only. -/
theorem notice_collisions_with_overwrites_witness :
    Sample.type_name Sample.static_agent = "static" ∧
    (Agent.handle_collision Sample.type_name
      ((Sample.agent.notice_collisions_with "static" Sample.h1).notice_collisions_with
        "static" Sample.h2) Sample.static_agent []).2 = ["second"] :=
  ⟨rfl, congrArg Prod.snd
    (notice_collisions_with_overwrites Sample.type_name Sample.agent Sample.static_agent
      "static" Sample.h1 Sample.h2 [] rfl).2.2⟩

/-- C7: plugin contract.  When the creation entry point `create_agent(spec,
world)` returns an instance and the destruction entry point `destroy_agent` is
called on it at once, the World (its registry and its physics space) is after
creation and after destruction what it was before, so no body was registered;
creation allocated exactly one instance, at an address that was not in use, and
destruction released exactly that instance and the body and shape it owned. -/
theorem create_then_destroy_leaves_no_trace (moment : json → cpFloat) (spec : json)
    (world : Ptr) (m : Memory σ) (object : Ptr) (m1 : Memory σ)
    (hcreate : Block.create_agent moment spec world m = some (object, m1)) :
    m1.world = m.world ∧
    (Block.destroy_agent object m1).world = m.world ∧
    (m1.obj object)._body ∉ m1.world.space.bodies ∧
    (object ≠ 0 ∧ object ∉ m.live) ∧
    m1.live = object :: m.live ∧
    (Block.destroy_agent object m1).live = m.live ∧
    (Block.destroy_agent object m1).engine = m.engine := by
  unfold Block.create_agent create_agent Block.construct Agent.construct at hcreate
  by_cases hreq : required_fields_present spec = true
  · simp only [hreq, if_true, Option.some.injEq, Prod.mk.injEq] at hcreate
    obtain ⟨hobject, hm1⟩ := hcreate
    subst hm1
    subst hobject
    have hne : fresh m.live ≠ 0 := fresh_ne_zero m.live
    have hbody : ∀ b ∈ m.world.space.bodies, b ≠ fresh m.engine_addresses := by
      intro b hb heq
      apply fresh_not_mem m.engine_addresses
      rw [← heq]
      unfold Memory.engine_addresses
      simp [hb]
    have hshape : ∀ c ∈ m.world.space.shapes,
        c ≠ fresh (fresh m.engine_addresses :: m.engine_addresses) := by
      intro c hc heq
      apply fresh_not_mem (fresh m.engine_addresses :: m.engine_addresses)
      rw [← heq]
      unfold Memory.engine_addresses
      simp [hc]
    have hfb : m.world.space.bodies.filter
        (fun b => !decide (b = fresh m.engine_addresses)) = m.world.space.bodies :=
      List.filter_eq_self.mpr (fun b hb => by simpa using hbody b hb)
    have hfs : m.world.space.shapes.filter
        (fun c => !decide (c = fresh (fresh m.engine_addresses :: m.engine_addresses)))
        = m.world.space.shapes :=
      List.filter_eq_self.mpr (fun c hc => by simpa using hshape c hc)
    refine ⟨rfl, ?_, ?_, ⟨hne, fresh_not_mem m.live⟩, rfl, ?_, ?_⟩
    · simp [Block.destroy_agent, destroy_agent, Agent.destruct, hne, hfb, hfs]
    · intro hmem
      exact hbody _ (by simpa using hmem) (by simp)
    · simp [Block.destroy_agent, destroy_agent, Agent.destruct, hne]
    · simp [Block.destroy_agent, destroy_agent, Agent.destruct, hne]
  · simp [hreq] at hcreate

/-- Witness for C7: on the sample state, creation returns the instance at
address 1; after destruction no instance and no engine object is left and the
space is still empty. -/
theorem create_then_destroy_leaves_no_trace_witness :
    Block.create_agent Sample.moment Sample.spec 100 Sample.memory
      = some (1, Sample.created) ∧
    Sample.created.live = [1] ∧
    (Block.destroy_agent 1 Sample.created).live = [] ∧
    (Block.destroy_agent 1 Sample.created).engine = [] ∧
    (Block.destroy_agent 1 Sample.created).world.space.bodies = [] :=
  have h := create_then_destroy_leaves_no_trace Sample.moment Sample.spec 100
    Sample.memory 1 Sample.created rfl
  ⟨rfl, h.2.2.2.2.1, h.2.2.2.2.2.1, h.2.2.2.2.2.2, congrArg (fun w => w.space.bodies) h.2.1⟩

/-- C4: for every well-formed World state and every agent reference, after
`add_agent(agent)`, then `all` with the visitor that calls `mark_for_removal`
on each agent, then one `update()` (whatever the agents' own `update` does),
the World's agent registry contains zero agents and the physics space contains
zero bodies. -/
theorem add_mark_update_empties_world (agent_update : Ptr → Memory σ → Memory σ)
    (m : Memory σ) (agent : Ptr) (hwf : World.well_formed m) (hagent : agent ≠ 0) :
    (World.update agent_update
      (World.all (World.add_agent m agent) World.mark_visitor)).world.agents = [] ∧
    (World.update agent_update
      (World.all (World.add_agent m agent) World.mark_visitor)).world.space.bodies = [] := by
  obtain ⟨hnull, hbodies⟩ := World.add_agent_well_formed m agent hwf hagent
  generalize World.add_agent m agent = m1 at hnull hbodies ⊢
  have hworld : (World.all m1 World.mark_visitor).world = m1.world :=
    mark_all_world m1.world.agents m1
  have hbody : ∀ q, ((World.all m1 World.mark_visitor).obj q)._body = (m1.obj q)._body :=
    fun q => mark_all_body m1.world.agents m1 q
  have hdead : ∀ q ∈ m1.world.agents,
      ((World.all m1 World.mark_visitor).obj q)._alive = false :=
    fun q hq => mark_all_dead m1.world.agents m1 q (Or.inl hq)
  generalize World.all m1 World.mark_visitor = m2 at hworld hbody hdead ⊢
  have hstep : World.update_agents agent_update (World.step_physics m2)
      = World.step_physics m2 := by
    apply update_agents_all_dead
    intro p hp
    have hp1 : p ∈ m1.world.agents := by rw [← hworld]; exact hp
    exact hdead p hp1
  unfold World.update
  rw [hstep]
  unfold World.reap
  obtain ⟨hobj, hagents, hleft⟩ := destroy_all
    ((World.step_physics m2).world.agents.filter
      (fun agent => !(World.step_physics m2).is_alive agent))
    { World.step_physics m2 with
      world := { (World.step_physics m2).world with
        agents := (World.step_physics m2).world.agents.filter
          (fun agent => (World.step_physics m2).is_alive agent) } }
  constructor
  · rw [hagents]
    apply List.filter_eq_nil_iff.mpr
    intro p hp
    have hp1 : p ∈ m1.world.agents := by rw [← hworld]; exact hp
    have : (m2.obj p)._alive = false := hdead p hp1
    simp [Memory.is_alive, Agent.is_alive, World.step_physics, this]
  · apply List.eq_nil_iff_forall_not_mem.mpr
    intro b hb
    obtain ⟨hb2, hnone⟩ := hleft b hb
    have hb1 : b ∈ m1.world.space.bodies := by rw [← hworld]; exact hb2
    obtain ⟨q, hq, hqb⟩ := hbodies b hb1
    have hq2 : q ∈ m2.world.agents := by rw [hworld]; exact hq
    have hqdead : (m2.obj q)._alive = false := hdead q hq
    have hmem : q ∈ (World.step_physics m2).world.agents.filter
        (fun agent => !(World.step_physics m2).is_alive agent) := by
      apply List.mem_filter.mpr
      refine ⟨hq2, ?_⟩
      simp [Memory.is_alive, Agent.is_alive, World.step_physics, hqdead]
    apply hnone q hmem (hnull q hq)
    show (m2.obj q)._body = b
    rw [hbody, hqb]

/-- Witness for C4: the sample state after creation is well formed; adding the
instance at address 1 registers it and its body, and after marking and one
update (with an agent update that would label the agent) nothing is left. -/
theorem add_mark_update_empties_world_witness :
    World.well_formed Sample.created ∧
    (World.add_agent Sample.created 1).world.agents = [1] ∧
    (World.add_agent Sample.created 1).world.space.bodies = [1] ∧
    (World.update (fun p s => (s.label p "seen" 0 0).2)
      (World.all (World.add_agent Sample.created 1) World.mark_visitor)).world.agents = [] ∧
    (World.update (fun p s => (s.label p "seen" 0 0).2)
      (World.all (World.add_agent Sample.created 1)
        World.mark_visitor)).world.space.bodies = [] :=
  have hwf : World.well_formed Sample.created :=
    ⟨fun _ h => (nomatch h), fun _ h => (nomatch h)⟩
  have h := add_mark_update_empties_world (fun p s => (s.label p "seen" 0 0).2)
    Sample.created 1 hwf (by decide)
  ⟨hwf, rfl, rfl, h.1, h.2⟩

end Claims

end enviro
